import Mathlib

/-!
Verification of the RTXTS tile-streaming sample against its design description.

The definitions below are a shallow embedding of the relevant C++ code:

* `TileUploadHelper` and its operations — `src/main.cpp`, class `TileUploadHelper`
  (constructor, `BeginFrame`, `NumTilesMax`, `UploadTile`);
* the per-frame tile collection and scheduling logic of
  `SampleApp::ProcessFeedbackBeforeRender` — `src/main.cpp`;
* the camera-cut handling of the feedback update config — `src/main.cpp` together
  with the documented semantics of `FeedbackUpdateConfig::maxTexturesToUpdate`
  in `feedbackmanager/include/feedbackmanager.h`;
* texture routing and registration of `SampleApp::EnsureFeedbackTextures` and the
  texture-set admission of `SampleApp::EnsureTextureSets` — `src/main.cpp`;
* the map clearing in `SampleApp::SceneUnloading` — `src/main.cpp`;
* the memoized binding-set cache `MaterialBindingCacheFeedback` —
  `src/MaterialBindingCacheFeedback.cpp`;
* the reference counting of `FeedbackTextureImpl` —
  `feedbackmanager/src/feedbacktexture.h` / `feedbacktexture.cpp`.

Machine integers are modelled as `Nat`/`Int`; C++ `uint32_t` casts of signed
values are made explicit where they matter.  GPU handles and object identities
are modelled as `Nat` ids.
-/

/-! ## TileUploadHelper (src/main.cpp, lines 354-455) -/

/-- The `D3D12_TILED_RESOURCE_TILE_SIZE_IN_BYTES`: byte size of one tiled-resource
tile (64 KiB), the unit of the staging-buffer layout. -/
def D3D12_TILED_RESOURCE_TILE_SIZE_IN_BYTES : Nat := 65536

/-- State of the `TileUploadHelper` class: the construction-time capacity
`m_maxTiles`, the ring size `m_framesInFlight`, the currently selected ring
slot `m_frameIndex` and the per-slot tile counters `m_tileCount`. -/
structure TileUploadHelper where
  m_maxTiles : Nat
  m_framesInFlight : Nat
  m_frameIndex : Nat
  m_tileCount : List Nat
deriving Repr, DecidableEq

/-- The `TileUploadHelper` constructor: `m_tileCount.resize(m_framesInFlight, 0)`
and `uint32_t m_frameIndex = -1` (the uint32 wrap of `-1`). -/
def TileUploadHelper.create (maxTiles framesInFlight : Nat) : TileUploadHelper :=
  { m_maxTiles := maxTiles
    m_framesInFlight := framesInFlight
    m_frameIndex := 2 ^ 32 - 1
    m_tileCount := List.replicate framesInFlight 0 }

/-- The `TileUploadHelper::BeginFrame`: select slot `frameIndex % m_framesInFlight`
and reset that slot's tile counter to zero. -/
def TileUploadHelper.BeginFrame (h : TileUploadHelper) (frameIndex : Nat) : TileUploadHelper :=
  let fi := frameIndex % h.m_framesInFlight
  { h with m_frameIndex := fi, m_tileCount := h.m_tileCount.set fi 0 }

/-- The `TileUploadHelper::NumTilesMax`. -/
def TileUploadHelper.NumTilesMax (h : TileUploadHelper) : Nat := h.m_maxTiles

/-- Result of `TileUploadHelper::UploadTile`: the returned `bool`, the updated
helper state, and — when a copy was issued — the staging-buffer byte offset it
consumed (`none` models "no copy performed"). -/
structure UploadTileResult where
  ok : Bool
  helper : TileUploadHelper
  copy : Option Nat
deriving Repr, DecidableEq

/-- The `TileUploadHelper::UploadTile`: if the current slot's counter has reached
`m_maxTiles`, return `false` without touching any state; otherwise consume the
staging offset `tileCount * D3D12_TILED_RESOURCE_TILE_SIZE_IN_BYTES`, increment
the counter, and issue the copy. -/
def TileUploadHelper.UploadTile (h : TileUploadHelper) : UploadTileResult :=
  if h.m_maxTiles ≤ h.m_tileCount.getD h.m_frameIndex 0 then
    ⟨false, h, none⟩
  else
    ⟨true,
      { h with m_tileCount :=
          h.m_tileCount.set h.m_frameIndex (h.m_tileCount.getD h.m_frameIndex 0 + 1) },
      some (h.m_tileCount.getD h.m_frameIndex 0 * D3D12_TILED_RESOURCE_TILE_SIZE_IN_BYTES)⟩

/-- A call made to the helper during some frame sequence. -/
inductive TileUploadOp where
  | beginFrame (frameIndex : Nat)
  | uploadTile
deriving Repr, DecidableEq

/-- Run a sequence of `BeginFrame`/`UploadTile` calls on the helper. -/
def TileUploadHelper.runOps (h : TileUploadHelper) : List TileUploadOp → TileUploadHelper
  | [] => h
  | TileUploadOp.beginFrame f :: rest => (h.BeginFrame f).runOps rest
  | TileUploadOp.uploadTile :: rest => h.UploadTile.helper.runOps rest

/-! ## Feedback update config and the camera cut (src/main.cpp, lines 1214-1226,
and feedbackmanager/include/feedbackmanager.h, `FeedbackUpdateConfig`) -/

/-- The per-frame computation of `fconfig.maxTexturesToUpdate` together with the
update of the `m_cameraCut` flag, from `SampleApp::ProcessFeedbackBeforeRender`:
`fconfig.maxTexturesToUpdate = std::max(m_ui.texturesPerFrame, 0)` followed by
`if (m_cameraCut) { fconfig.maxTexturesToUpdate = 0; m_cameraCut = false; }`.
Returns the `maxTexturesToUpdate` value passed to `FeedbackManager::BeginFrame`
and the value of `m_cameraCut` after the frame. -/
def computeMaxTexturesToUpdate (texturesPerFrame : Int) (cameraCut : Bool) : Nat × Bool :=
  if cameraCut then (0, false)
  else ((max texturesPerFrame 0).toNat, cameraCut)

/-- The documented semantics of `FeedbackUpdateConfig::maxTexturesToUpdate`
("Max textures to update, 0=unlimited", feedbackmanager.h): value `0` places no
ceiling on the number of distinct textures updated in a frame (`none`), any
other value is a ceiling. -/
def effectiveTextureUpdateLimit (maxTexturesToUpdate : Nat) : Option Nat :=
  if maxTexturesToUpdate = 0 then none else some maxTexturesToUpdate

/-! ## Per-frame tile collection and scheduling
(src/main.cpp, `SampleApp::ProcessFeedbackBeforeRender`, lines 1229-1292 and
1337-1359).  Textures are identified by `Nat` ids; the classification
`FeedbackTexture::IsTilePacked` is a parameter `isTilePacked : Nat → Nat → Bool`. -/

/-- The `RequestedTile`: an (owning texture, tile index) pair (src/main.cpp). -/
structure RequestedTile where
  texture : Nat
  tileIndex : Nat
deriving Repr, DecidableEq

/-- The `FeedbackTextureUpdate`: a texture together with a list of tile indices
(feedbackmanager.h). -/
structure FeedbackTextureUpdate where
  texture : Nat
  tileIndices : List Nat
deriving Repr, DecidableEq

/-- All requested tiles of a `FeedbackTextureCollection`, flattened in
iteration order. -/
def flattenUpdates : List FeedbackTextureUpdate → List RequestedTile
  | [] => []
  | u :: rest => u.tileIndices.map (fun idx => ⟨u.texture, idx⟩) ++ flattenUpdates rest

/-- One step of the inner collection loop (src/main.cpp lines 1234-1241): the
tile is classified by `IsTilePacked`; a packed tile is appended to the
frame-local `requestedPackedTiles` vector, a regular tile is pushed onto the
cross-frame queue `m_requestedTiles`. -/
def collectTileStep (isTilePacked : Nat → Nat → Bool) (texture : Nat)
    (acc : List RequestedTile × List RequestedTile) (idx : Nat) :
    List RequestedTile × List RequestedTile :=
  if isTilePacked texture idx then
    (acc.1 ++ [⟨texture, idx⟩], acc.2)
  else
    (acc.1, acc.2 ++ [⟨texture, idx⟩])

/-- The collection loop (src/main.cpp lines 1229-1242).  Returns (packed tiles,
tiles pushed to the queue), each in iteration order. -/
def collectTiles (isTilePacked : Nat → Nat → Bool) (updates : List FeedbackTextureUpdate) :
    List RequestedTile × List RequestedTile :=
  updates.foldl (fun acc texUpdate =>
    texUpdate.tileIndices.foldl (collectTileStep isTilePacked texUpdate.texture) acc) ([], [])

/-- The `scheduleTileForUpload` lambda (src/main.cpp lines 1257-1280): find the
first entry of `tilesThisFrame` for the tile's texture and append the tile
index to it; if there is none, append a new entry for the texture. -/
def scheduleTileForUpload : List FeedbackTextureUpdate → RequestedTile → List FeedbackTextureUpdate
  | [], reqTile => [⟨reqTile.texture, [reqTile.tileIndex]⟩]
  | texUpdate :: rest, reqTile =>
    if texUpdate.texture = reqTile.texture then
      ⟨texUpdate.texture, texUpdate.tileIndices ++ [reqTile.tileIndex]⟩ :: rest
    else
      texUpdate :: scheduleTileForUpload rest reqTile

/-- The C++ `(uint32_t)` cast of a signed 32-bit value. -/
def uint32OfInt (x : Int) : Nat := (x % (2 ^ 32)).toNat

/-- The `countUpload` (src/main.cpp lines 1253-1254):
`min(min((uint32_t)m_requestedTiles.size(), m_tileUploadHelper.NumTilesMax()),
(uint32_t)m_ui.tilesPerFrame)`. -/
def countUpload (queueLength maxTilesUpload : Nat) (tilesPerFrame : Int) : Nat :=
  min (min queueLength maxTilesUpload) (uint32OfInt tilesPerFrame)

/-- The regular-tile loop (src/main.cpp lines 1287-1291): `countUpload` times,
schedule the front of the queue and pop it. -/
def uploadRegularTiles :
    Nat → List RequestedTile → List FeedbackTextureUpdate →
    List FeedbackTextureUpdate × List RequestedTile
  | 0, queue, tilesThisFrame => (tilesThisFrame, queue)
  | _ + 1, [], tilesThisFrame => (tilesThisFrame, [])
  | n + 1, reqTile :: queue, tilesThisFrame =>
    uploadRegularTiles n queue (scheduleTileForUpload tilesThisFrame reqTile)

/-- The scheduling block (src/main.cpp lines 1248-1292): when any tile is
pending, schedule all packed tiles, then dequeue and schedule `countUpload`
regular tiles from the front of the queue.  Returns `tilesThisFrame` and the
remaining queue. -/
def scheduleFrame (requestedPackedTiles queue : List RequestedTile)
    (maxTilesUpload : Nat) (tilesPerFrame : Int) :
    List FeedbackTextureUpdate × List RequestedTile :=
  if requestedPackedTiles.isEmpty && queue.isEmpty then
    ([], queue)
  else
    uploadRegularTiles (countUpload queue.length maxTilesUpload tilesPerFrame) queue
      (requestedPackedTiles.foldl scheduleTileForUpload [])

/-- The whole pre-render scheduling path of one frame: collect the requested
tiles into packed tiles and queued regular tiles, then pick this frame's
uploads. -/
def processFeedbackSchedule (isTilePacked : Nat → Nat → Bool)
    (updates : List FeedbackTextureUpdate) (queue : List RequestedTile)
    (maxTilesUpload : Nat) (tilesPerFrame : Int) :
    List FeedbackTextureUpdate × List RequestedTile :=
  scheduleFrame (collectTiles isTilePacked updates).1
    (queue ++ (collectTiles isTilePacked updates).2) maxTilesUpload tilesPerFrame

/-- The two upload code paths of the upload loop (src/main.cpp lines 1337-1359). -/
inductive TileUploadPath where
  | packedMipWriteTexture
  | regularTileCopy
deriving Repr, DecidableEq

/-- Path selection in the upload loop: packed tiles take the flexible
`writeTexture` byte-copy path, regular tiles take the
`TileUploadHelper::UploadTile` fast path. -/
def uploadPathForTile (isTilePacked : Nat → Nat → Bool) (texture tileIndex : Nat) :
    TileUploadPath :=
  if isTilePacked texture tileIndex then TileUploadPath.packedMipWriteTexture
  else TileUploadPath.regularTileCopy

/-- How many times the tile `t` occurs in a grouped `tilesThisFrame`
collection. -/
def tileCountIn (tilesThisFrame : List FeedbackTextureUpdate) (t : RequestedTile) : Nat :=
  (tilesThisFrame.map (fun u =>
    if u.texture = t.texture then u.tileIndices.count t.tileIndex else 0)).sum

/-! ## FeedbackTextureMaps and SceneUnloading (MaterialBindingCacheFeedback.h and
src/main.cpp lines 735-740).  Names, materials, textures and GPU objects are
identified by `Nat` ids; the unordered maps are association lists. -/

/-- The `FeedbackTextureMaps`: the five process-wide lookup maps. -/
structure FeedbackTextureMaps where
  m_feedbackTexturesByName : List (Nat × Nat)
  m_feedbackTexturesByFeedback : List (Nat × Nat)
  m_feedbackTexturesBySource : List (Nat × Nat)
  m_feedbackTextureSetsByMaterial : List (Nat × List Nat)
  m_materialConstantsFeedback : List (Nat × Bool)
deriving Repr, DecidableEq

/-- The application state touched by the scene-unload path: the maps and the
pending regular-tile queue `m_requestedTiles`. -/
structure AppFeedbackState where
  feedbackTextureMaps : FeedbackTextureMaps
  requestedTiles : List RequestedTile
deriving Repr, DecidableEq

/-- The `SampleApp::SceneUnloading` (the feedback-related part, src/main.cpp lines
735-740): clear each of the five maps and assign `m_requestedTiles = {}`. -/
def sceneUnloading (s : AppFeedbackState) : AppFeedbackState :=
  { s with
    feedbackTextureMaps :=
      { m_feedbackTexturesByName := []
        m_feedbackTexturesByFeedback := []
        m_feedbackTexturesBySource := []
        m_feedbackTextureSetsByMaterial := []
        m_materialConstantsFeedback := [] }
    requestedTiles := [] }

/-! ## MaterialBindingCacheFeedback (src/MaterialBindingCacheFeedback.cpp,
`GetMaterialBindingSet` lines 104-123 and `Clear` lines 118-123).

`m_BindingSets[material]` default-constructs a null handle on first access;
binding-set handles are `Option Nat` (with `none` for a null handle) and the
device's binding-set construction is modelled as handing out the next fresh
handle when the binding description is valid (`descValid`; the error path of
`CreateMaterialBindingSet` returns a null handle).  `constructedFor` records
every invocation of `CreateMaterialBindingSet`. -/

/-- The mutable state of `MaterialBindingCacheFeedback`. -/
structure MaterialBindingCache where
  m_BindingSets : List (Nat × Option Nat)
  nextBindingSetHandle : Nat
  constructedFor : List Nat
deriving Repr, DecidableEq

/-- Writing through the reference returned by `unordered_map::operator[]`:
update the entry if the key exists, otherwise insert it. -/
def setCacheEntry : List (Nat × Option Nat) → Nat → Option Nat → List (Nat × Option Nat)
  | [], material, v => [(material, v)]
  | (k, w) :: rest, material, v =>
    if k = material then (k, v) :: rest else (k, w) :: setCacheEntry rest material v

/-- The state after a cache miss in `GetMaterialBindingSet`:
`CreateMaterialBindingSet` has run, its result (the next fresh handle when the
binding description is valid, a null handle otherwise) has been stored through
the `operator[]` reference. -/
def bindingCacheMiss (c : MaterialBindingCache) (descValid : Bool) (material : Nat) :
    MaterialBindingCache :=
  { m_BindingSets := setCacheEntry c.m_BindingSets material
      (if descValid then some c.nextBindingSetHandle else none)
    nextBindingSetHandle := c.nextBindingSetHandle + 1
    constructedFor := c.constructedFor ++ [material] }

/-- The `MaterialBindingCacheFeedback::GetMaterialBindingSet`: return the cached
handle if it is non-null, otherwise run `CreateMaterialBindingSet`, store the
result in the map, and return it. -/
def GetMaterialBindingSet (c : MaterialBindingCache) (descValid : Bool) (material : Nat) :
    Option Nat × MaterialBindingCache :=
  match c.m_BindingSets.lookup material with
  | some (some bindingSet) => (some bindingSet, c)
  | _ =>
    (if descValid then some c.nextBindingSetHandle else none,
      bindingCacheMiss c descValid material)

/-- The `MaterialBindingCacheFeedback::Clear`: `m_BindingSets.clear()`. -/
def ClearBindingCache (c : MaterialBindingCache) : MaterialBindingCache :=
  { c with m_BindingSets := [] }

/-- A sequence of `GetMaterialBindingSet` queries. -/
def runGetMaterialBindingSet (c : MaterialBindingCache) (descValid : Bool) :
    List Nat → MaterialBindingCache
  | [] => c
  | material :: rest =>
    runGetMaterialBindingSet (GetMaterialBindingSet c descValid material).2 descValid rest

/-! ## FeedbackTextureImpl reference counting
(feedbackmanager/src/feedbacktexture.h lines 42-54, feedbacktexture.cpp lines
19-22 and 109-112).  `m_refCount` starts at 1 in the constructor; `Release`
deletes the object when the decremented count reaches zero, and the destructor
unregisters the texture from the `FeedbackManager`. -/

/-- An `AddRef` or `Release` call. -/
inductive RefOp where
  | addRef
  | release
deriving Repr, DecidableEq

/-- Observable lifetime state of a `FeedbackTextureImpl`: its reference count,
whether `delete this` has run, and whether `UnregisterTexture` has run. -/
structure FeedbackTextureLifetime where
  m_refCount : Nat
  destroyed : Bool
  unregistered : Bool
deriving Repr, DecidableEq

/-- The constructor: `m_refCount(1)`, alive and registered. -/
def FeedbackTextureLifetime.init : FeedbackTextureLifetime :=
  { m_refCount := 1, destroyed := false, unregistered := false }

/-- The `FeedbackTextureImpl::AddRef`: `return ++m_refCount`. -/
def FeedbackTextureLifetime.AddRef (t : FeedbackTextureLifetime) :
    Nat × FeedbackTextureLifetime :=
  (t.m_refCount + 1, { t with m_refCount := t.m_refCount + 1 })

/-- The `FeedbackTextureImpl::Release`: decrement; when the result is zero, run the
destructor (which calls `UnregisterTexture`) and free the object; return the
decremented count. -/
def FeedbackTextureLifetime.Release (t : FeedbackTextureLifetime) :
    Nat × FeedbackTextureLifetime :=
  if t.m_refCount - 1 = 0 then
    (t.m_refCount - 1, { m_refCount := t.m_refCount - 1, destroyed := true, unregistered := true })
  else
    (t.m_refCount - 1, { t with m_refCount := t.m_refCount - 1 })

/-- Run a sequence of `AddRef`/`Release` calls. -/
def FeedbackTextureLifetime.runRefOps (t : FeedbackTextureLifetime) :
    List RefOp → FeedbackTextureLifetime
  | [] => t
  | RefOp.addRef :: rest => t.AddRef.2.runRefOps rest
  | RefOp.release :: rest => t.Release.2.runRefOps rest

/-- A call sequence is valid from count `n` when every call happens while the
object is still alive (its count is positive); calling into a deleted object
would be undefined behaviour in the source. -/
def validRefOps : Nat → List RefOp → Bool
  | _, [] => true
  | n, RefOp.addRef :: rest => decide (0 < n) && validRefOps (n + 1) rest
  | n, RefOp.release :: rest => decide (0 < n) && validRefOps (n - 1) rest

/-! ## Texture-set admission (src/main.cpp, `SampleApp::EnsureTextureSets`,
lines 1072-1170).  A texture is identified by a `Nat` id; `bySource` is the
`m_feedbackTexturesBySource` map, carrying for each mapped texture the
dimensions of its reserved texture (`GetReservedTexture()->getDesc()`). -/

/-- The reserved-texture descriptor fields read by the admission check. -/
structure TexSetDesc where
  width : Nat
  height : Nat
  mipLevels : Nat
deriving Repr, DecidableEq

/-- The texture slots of a material, in the order `EnsureTextureSets` adds them
to a candidate set (diffuse first — the primary). -/
structure Material where
  baseOrDiffuseTexture : Option Nat
  metalRoughOrSpecularTexture : Option Nat
  normalTexture : Option Nat
  emissiveTexture : Option Nat
  occlusionTexture : Option Nat
  transmissionTexture : Option Nat
  opacityTexture : Option Nat
deriving Repr, DecidableEq

/-- The slot order of the seven `addTextureToSet` calls. -/
def materialTextureSlots (mat : Material) : List (Option Nat) :=
  [mat.baseOrDiffuseTexture, mat.metalRoughOrSpecularTexture, mat.normalTexture,
   mat.emissiveTexture, mat.occlusionTexture, mat.transmissionTexture, mat.opacityTexture]

/-- The `addTextureToSet` lambda: skip a null texture and a texture with no
feedback wrapper, otherwise add the texture to the set. -/
def addTextureToSet (bySource : List (Nat × TexSetDesc)) (set : List Nat) :
    Option Nat → List Nat
  | none => set
  | some tex =>
    match bySource.lookup tex with
    | none => set
    | some _ => set ++ [tex]

/-- The members of a material's candidate texture set, in add order; the first
member (the diffuse texture, when present and mapped) is the primary. -/
def textureSetMembers (bySource : List (Nat × TexSetDesc)) (mat : Material) : List Nat :=
  (materialTextureSlots mat).foldl (addTextureToSet bySource) []

/-- One follower check of the admission loop (src/main.cpp lines 1117-1130):
`width > primaryWidth || height > primaryHeight || mipLevels > primaryMipLevels`. -/
def followerExceedsPrimary (primary follower : TexSetDesc) : Bool :=
  decide (primary.width < follower.width) || decide (primary.height < follower.height) ||
    decide (primary.mipLevels < follower.mipLevels)

/-- Candidate construction and admission for one material: materials without a
diffuse texture, or whose diffuse texture has no feedback wrapper, produce no
candidate; a candidate is rejected in its entirety when any member's reserved
texture exceeds the primary's, otherwise the full member list is stored. -/
def ensureTextureSetForMaterial (bySource : List (Nat × TexSetDesc)) (mat : Material) :
    Option (List Nat) :=
  match mat.baseOrDiffuseTexture with
  | none => none
  | some diffuse =>
    match bySource.lookup diffuse with
    | none => none
    | some primaryDesc =>
      if (textureSetMembers bySource mat).any (fun tex =>
          match bySource.lookup tex with
          | none => false
          | some d => followerExceedsPrimary primaryDesc d) then
        none
      else
        some (textureSetMembers bySource mat)

/-- The `m_feedbackTextureSetsByMaterial` map built by the material loop
(materials are identified by `Nat` ids). -/
def buildTextureSets (bySource : List (Nat × TexSetDesc))
    (materials : List (Nat × Material)) : List (Nat × List Nat) :=
  materials.foldl (fun acc p =>
    match ensureTextureSetForMaterial bySource p.2 with
    | none => acc
    | some s => acc ++ [(p.1, s)]) []

/-- The `SampleApp::EnsureTextureSets` (the admission and constant-buffer part):
build the sets-by-material map when texture sets are enabled, then give every
material a `FeedbackConstants` buffer whose `useTextureSet` flag records
membership in that map. -/
def ensureTextureSets (bySource : List (Nat × TexSetDesc))
    (materials : List (Nat × Material)) (useTextureSets : Bool) :
    List (Nat × List Nat) × List (Nat × Bool) :=
  ((if useTextureSets then buildTextureSets bySource materials else []),
   materials.map (fun p => (p.1,
     ((if useTextureSets then buildTextureSets bySource materials else []).lookup p.1).isSome)))

/-! ## EnsureFeedbackTextures and the binding-set item builders
(src/main.cpp, `SampleApp::EnsureFeedbackTextures`, lines 986-1037, and
src/MaterialBindingCacheFeedback.cpp, `GetTextureBindingSetItem`, lines
125-134).

Texture-cache entries are identified by their (distinct) cache key, modelled as
`Nat`; each loop iteration that takes the tiled path creates one feedback
texture and one wrapper shared by the three maps, identified here by the
texture's key.  The cache loads textures without finalizing them
(`TextureCacheFeedback`), so `texture->texture` is null before this pass. -/

/-- The nvrhi formats relevant to the routing decision.  In the nvrhi `Format`
enum the block-compressed formats form a contiguous range from `BC1_UNORM` to
`BC7_UNORM_SRGB`; the remaining constructors stand for formats outside that
range. -/
inductive TexFormat where
  | BC1_UNORM
  | BC1_UNORM_SRGB
  | BC2_UNORM
  | BC2_UNORM_SRGB
  | BC3_UNORM
  | BC3_UNORM_SRGB
  | BC4_UNORM
  | BC4_SNORM
  | BC5_UNORM
  | BC5_SNORM
  | BC6H_UFLOAT
  | BC6H_SFLOAT
  | BC7_UNORM
  | BC7_UNORM_SRGB
  | RGBA8_UNORM
  | SRGBA8_UNORM
  | R32_FLOAT
  | RGBA16_FLOAT
deriving Repr, DecidableEq

/-- The `texture->format >= nvrhi::Format::BC1_UNORM && texture->format <=
nvrhi::Format::BC7_UNORM_SRGB` (src/main.cpp line 989): the formats in that
inclusive enum range are exactly the BC constructors. -/
def isBlockCompressed : TexFormat → Bool
  | TexFormat.BC1_UNORM | TexFormat.BC1_UNORM_SRGB
  | TexFormat.BC2_UNORM | TexFormat.BC2_UNORM_SRGB
  | TexFormat.BC3_UNORM | TexFormat.BC3_UNORM_SRGB
  | TexFormat.BC4_UNORM | TexFormat.BC4_SNORM
  | TexFormat.BC5_UNORM | TexFormat.BC5_SNORM
  | TexFormat.BC6H_UFLOAT | TexFormat.BC6H_SFLOAT
  | TexFormat.BC7_UNORM | TexFormat.BC7_UNORM_SRGB => true
  | _ => false

/-- A texture-cache entry: its cache key (`name`) and the `TextureData` fields
the routing reads. -/
structure TextureData where
  name : Nat
  format : TexFormat
  width : Nat
  height : Nat
  depth : Nat
  arraySize : Nat
  mipLevels : Nat
deriving Repr, DecidableEq

/-- The `bool useTiledTexture = isBlockCompressed && textureDesc.depth == 1 &&
textureDesc.arraySize == 1` (src/main.cpp line 1007). -/
def useTiledTexture (t : TextureData) : Bool :=
  isBlockCompressed t.format && decide (t.depth = 1) && decide (t.arraySize = 1)

/-- The `writeTexture` calls of the non-tiled path (src/main.cpp lines
1014-1021): one per (array slice, mip level) pair, in loop order. -/
def allSubresourceWrites (t : TextureData) : List (Nat × Nat × Nat) :=
  (List.range t.arraySize).foldl (fun acc arraySlice =>
    acc ++ (List.range t.mipLevels).map (fun mipLevel => (t.name, arraySlice, mipLevel))) []

/-- The observable outcome of `EnsureFeedbackTextures`: the created ordinary
GPU textures (`texture->texture` assignments), the `writeTexture` calls
issued, and the three wrapper maps. -/
structure EnsureTexturesResult where
  gpuTexture : List (Nat × Nat)
  writes : List (Nat × Nat × Nat)
  byName : List (Nat × Nat)
  byFeedback : List (Nat × Nat)
  bySource : List (Nat × Nat)
deriving Repr, DecidableEq

/-- One iteration of the texture-cache loop: a non-tiled texture gets an
ordinary GPU texture and all of its subresources written; a tiled texture gets
a feedback texture whose shared wrapper is registered in the three maps. -/
def ensureFeedbackTexturesStep (st : EnsureTexturesResult) (texture : TextureData) :
    EnsureTexturesResult :=
  if useTiledTexture texture then
    { st with
      byName := st.byName ++ [(texture.name, texture.name)]
      byFeedback := st.byFeedback ++ [(texture.name, texture.name)]
      bySource := st.bySource ++ [(texture.name, texture.name)] }
  else
    { st with
      gpuTexture := st.gpuTexture ++ [(texture.name, texture.name)]
      writes := st.writes ++ allSubresourceWrites texture }

/-- The `SampleApp::EnsureFeedbackTextures`: the maps start cleared (lines
968-971), then every cache entry is routed. -/
def ensureFeedbackTextures (cache : List TextureData) : EnsureTexturesResult :=
  cache.foldl ensureFeedbackTexturesStep ⟨[], [], [], [], []⟩

/-- The texture binding a material slot receives
(`MaterialBindingCacheFeedback::GetTextureBindingSetItem`). -/
inductive BindingSetItemTexture where
  | fallback
  | direct (gpuTexture : Nat)
  | reserved (wrapper : Nat)
deriving Repr, DecidableEq

/-- The `GetTextureBindingSetItem` (src/MaterialBindingCacheFeedback.cpp lines
125-134): a null texture binds the fallback, a texture with a GPU handle binds
it directly, otherwise the reserved texture of the wrapper found in
`m_feedbackTexturesBySource` is bound; `none` models the out-of-contract
lookup of a key absent from that map. -/
def GetTextureBindingSetItem (res : EnsureTexturesResult) (texture : Option Nat) :
    Option BindingSetItemTexture :=
  match texture with
  | none => some BindingSetItemTexture.fallback
  | some name =>
    match res.gpuTexture.lookup name with
    | some h => some (BindingSetItemTexture.direct h)
    | none => (res.bySource.lookup name).map BindingSetItemTexture.reserved

/-! ## Theorems -/

theorem TileUploadHelper.maxTiles_BeginFrame (h : TileUploadHelper) (f : Nat) :
    (h.BeginFrame f).m_maxTiles = h.m_maxTiles := rfl

theorem TileUploadHelper.maxTiles_UploadTile (h : TileUploadHelper) :
    h.UploadTile.helper.m_maxTiles = h.m_maxTiles := by
  unfold TileUploadHelper.UploadTile
  split <;> rfl

theorem TileUploadHelper.counts_le_BeginFrame (h : TileUploadHelper) (f : Nat)
    (hle : ∀ c ∈ h.m_tileCount, c ≤ h.m_maxTiles) :
    ∀ c ∈ (h.BeginFrame f).m_tileCount, c ≤ h.m_maxTiles := by
  intro c hc
  rcases List.mem_or_eq_of_mem_set hc with hmem | hzero
  · exact hle c hmem
  · simp [hzero]

theorem TileUploadHelper.counts_le_UploadTile (h : TileUploadHelper)
    (hle : ∀ c ∈ h.m_tileCount, c ≤ h.m_maxTiles) :
    ∀ c ∈ h.UploadTile.helper.m_tileCount, c ≤ h.m_maxTiles := by
  unfold TileUploadHelper.UploadTile
  split
  · exact hle
  · rename_i hlt
    intro c hc
    rcases List.mem_or_eq_of_mem_set hc with hmem | hv
    · exact hle c hmem
    · subst hv
      omega

theorem TileUploadHelper.counts_le_runOps (h : TileUploadHelper) (ops : List TileUploadOp)
    (hle : ∀ c ∈ h.m_tileCount, c ≤ h.m_maxTiles) :
    ∀ c ∈ (h.runOps ops).m_tileCount, c ≤ h.m_maxTiles := by
  induction ops generalizing h with
  | nil => exact hle
  | cons op rest ih =>
    cases op with
    | beginFrame f =>
      exact ih (h.BeginFrame f) (h.counts_le_BeginFrame f hle)
    | uploadTile =>
      have := ih h.UploadTile.helper
      rw [TileUploadHelper.maxTiles_UploadTile] at this
      exact this (h.counts_le_UploadTile hle)

/-- C3: `TileUploadHelper::UploadTile` returns `false` and performs no copy once
the current frame slot's counter has reached `m_maxTiles`; the cap is checked
before a staging offset is consumed (a consumed offset always corresponds to a
counter value strictly below the cap), so no frame slot's tile counter ever
exceeds `m_maxTiles` along any call sequence; and `BeginFrame frameIndex`
selects slot `frameIndex % m_framesInFlight` and resets only that slot's
counter to zero. -/
theorem uploadTile_cap_enforced (h : TileUploadHelper) :
    (h.m_maxTiles ≤ h.m_tileCount.getD h.m_frameIndex 0 →
      h.UploadTile = ⟨false, h, none⟩) ∧
    (∀ off, h.UploadTile.copy = some off →
      h.m_tileCount.getD h.m_frameIndex 0 < h.m_maxTiles ∧
      off = h.m_tileCount.getD h.m_frameIndex 0 * D3D12_TILED_RESOURCE_TILE_SIZE_IN_BYTES) ∧
    (∀ ops, (∀ c ∈ h.m_tileCount, c ≤ h.m_maxTiles) →
      ∀ c ∈ (h.runOps ops).m_tileCount, c ≤ h.m_maxTiles) ∧
    (∀ f, (h.BeginFrame f).m_frameIndex = f % h.m_framesInFlight ∧
      (h.BeginFrame f).m_tileCount = h.m_tileCount.set (f % h.m_framesInFlight) 0) := by
  refine ⟨?_, ?_, ?_, ?_⟩
  · intro hge
    unfold TileUploadHelper.UploadTile
    rw [if_pos hge]
  · intro off hoff
    unfold TileUploadHelper.UploadTile at hoff
    split at hoff
    · simp at hoff
    · rename_i hlt
      simp only [Option.some.injEq] at hoff
      omega
  · intro ops hle
    exact h.counts_le_runOps ops hle
  · intro f
    exact ⟨rfl, rfl⟩

/-- Witness for C3 at a concrete helper state: a helper with capacity 2 whose
current slot already holds 2 tiles refuses the upload and changes nothing. -/
theorem uploadTile_cap_enforced_witness :
    (2 ≤ (TileUploadHelper.mk 2 3 0 [2, 0, 1]).m_tileCount.getD
        (TileUploadHelper.mk 2 3 0 [2, 0, 1]).m_frameIndex 0) ∧
    (TileUploadHelper.mk 2 3 0 [2, 0, 1]).UploadTile =
      ⟨false, TileUploadHelper.mk 2 3 0 [2, 0, 1], none⟩ := by
  refine ⟨by decide, ?_⟩
  exact (uploadTile_cap_enforced (TileUploadHelper.mk 2 3 0 [2, 0, 1])).1 (by decide)

/-- C4: a forced camera cut suppresses the partial-update throttle for exactly
one frame: on that frame the code passes `maxTexturesToUpdate = 0` to
`FeedbackManager::BeginFrame`, which the interface documents as unlimited (no
ceiling, so the full visible set is requested at once), and the camera-cut flag
is cleared, so on the following frame the user-configured `texturesPerFrame`
ceiling applies again. -/
theorem camera_cut_suppresses_throttle_one_frame (texturesPerFrame : Int) :
    (computeMaxTexturesToUpdate texturesPerFrame true).1 = 0 ∧
    effectiveTextureUpdateLimit (computeMaxTexturesToUpdate texturesPerFrame true).1 = none ∧
    (computeMaxTexturesToUpdate texturesPerFrame true).2 = false ∧
    (computeMaxTexturesToUpdate texturesPerFrame false).1 = (max texturesPerFrame 0).toNat ∧
    (computeMaxTexturesToUpdate texturesPerFrame false).2 = false := by
  refine ⟨rfl, rfl, rfl, rfl, rfl⟩

theorem tileCountIn_nil (t : RequestedTile) : tileCountIn [] t = 0 := rfl

theorem tileCountIn_cons (u : FeedbackTextureUpdate) (l : List FeedbackTextureUpdate)
    (t : RequestedTile) :
    tileCountIn (u :: l) t =
      (if u.texture = t.texture then u.tileIndices.count t.tileIndex else 0) +
        tileCountIn l t := by
  simp [tileCountIn]

theorem tileCountIn_scheduleTileForUpload (g : List FeedbackTextureUpdate)
    (r t : RequestedTile) :
    tileCountIn (scheduleTileForUpload g r) t =
      tileCountIn g t + (if r = t then 1 else 0) := by
  induction g with
  | nil =>
    rcases r with ⟨rtex, ridx⟩
    rcases t with ⟨ttex, tidx⟩
    simp only [scheduleTileForUpload, tileCountIn_cons, tileCountIn_nil, RequestedTile.mk.injEq]
    by_cases htex : rtex = ttex <;> by_cases hidx : ridx = tidx <;>
      simp [htex, hidx, List.count_cons]
  | cons u rest ih =>
    rcases u with ⟨utex, utiles⟩
    rcases r with ⟨rtex, ridx⟩
    rcases t with ⟨ttex, tidx⟩
    by_cases hu : utex = rtex
    · subst hu
      by_cases htex : utex = ttex <;> by_cases hidx : ridx = tidx <;>
        · simp [scheduleTileForUpload, htex, hidx, tileCountIn_cons, List.count_append,
            List.count_cons, RequestedTile.mk.injEq]
          try omega
    · simp only [scheduleTileForUpload, if_neg hu, tileCountIn_cons, ih]
      omega

theorem tileCountIn_foldl (l : List RequestedTile) (g : List FeedbackTextureUpdate)
    (t : RequestedTile) :
    tileCountIn (l.foldl scheduleTileForUpload g) t = tileCountIn g t + l.count t := by
  induction l generalizing g with
  | nil => simp
  | cons r rest ih =>
    simp only [List.foldl_cons, ih, tileCountIn_scheduleTileForUpload, List.count_cons]
    have : (if r = t then 1 else 0) = if (r == t) = true then 1 else 0 := by
      by_cases h : r = t <;> simp [h]
    omega

theorem uploadRegularTiles_eq (n : Nat) (queue : List RequestedTile)
    (g : List FeedbackTextureUpdate) (h : n ≤ queue.length) :
    uploadRegularTiles n queue g =
      ((queue.take n).foldl scheduleTileForUpload g, queue.drop n) := by
  induction n generalizing queue g with
  | zero => simp [uploadRegularTiles]
  | succ m ih =>
    cases queue with
    | nil => simp at h
    | cons r rest =>
      simp only [uploadRegularTiles, List.take_succ_cons, List.drop_succ_cons, List.foldl_cons]
      exact ih rest (scheduleTileForUpload g r) (by simpa using h)

theorem scheduleFrame_eq (requestedPackedTiles queue : List RequestedTile)
    (maxTilesUpload : Nat) (tilesPerFrame : Int) :
    scheduleFrame requestedPackedTiles queue maxTilesUpload tilesPerFrame =
      ((queue.take (countUpload queue.length maxTilesUpload tilesPerFrame)).foldl
          scheduleTileForUpload (requestedPackedTiles.foldl scheduleTileForUpload []),
        queue.drop (countUpload queue.length maxTilesUpload tilesPerFrame)) := by
  unfold scheduleFrame
  split
  · rename_i hempty
    rw [Bool.and_eq_true, List.isEmpty_iff, List.isEmpty_iff] at hempty
    rcases hempty with ⟨hp, hq⟩
    subst hp
    subst hq
    simp [countUpload]
  · exact uploadRegularTiles_eq _ queue _
      (le_trans (Nat.min_le_left _ _) (Nat.min_le_left _ _))

theorem uint32OfInt_eq_toNat (x : Int) (h0 : 0 ≤ x) (h32 : x < 2 ^ 32) :
    uint32OfInt x = x.toNat := by
  unfold uint32OfInt
  rw [Int.emod_eq_of_lt h0 h32]

theorem collectTiles_inner (isTilePacked : Nat → Nat → Bool) (tex : Nat) (idxs : List Nat)
    (acc : List RequestedTile × List RequestedTile) :
    idxs.foldl (collectTileStep isTilePacked tex) acc
      = (acc.1 ++ (idxs.map (fun idx => RequestedTile.mk tex idx)).filter
            (fun t => isTilePacked t.texture t.tileIndex),
         acc.2 ++ (idxs.map (fun idx => RequestedTile.mk tex idx)).filter
            (fun t => !isTilePacked t.texture t.tileIndex)) := by
  induction idxs generalizing acc with
  | nil => simp
  | cons i rest ih =>
    simp only [List.foldl_cons, List.map_cons, List.filter_cons]
    rw [ih]
    by_cases hp : isTilePacked tex i <;>
      simp [collectTileStep, hp, List.append_assoc]

theorem collectTiles_go (isTilePacked : Nat → Nat → Bool)
    (updates : List FeedbackTextureUpdate) (acc : List RequestedTile × List RequestedTile) :
    updates.foldl (fun a texUpdate => texUpdate.tileIndices.foldl
        (collectTileStep isTilePacked texUpdate.texture) a) acc
      = (acc.1 ++ (flattenUpdates updates).filter
            (fun t => isTilePacked t.texture t.tileIndex),
         acc.2 ++ (flattenUpdates updates).filter
            (fun t => !isTilePacked t.texture t.tileIndex)) := by
  induction updates generalizing acc with
  | nil => simp [flattenUpdates]
  | cons u rest ih =>
    simp only [List.foldl_cons, flattenUpdates, List.filter_append]
    rw [collectTiles_inner, ih]
    simp [List.append_assoc]

theorem collectTiles_eq (isTilePacked : Nat → Nat → Bool)
    (updates : List FeedbackTextureUpdate) :
    collectTiles isTilePacked updates
      = ((flattenUpdates updates).filter (fun t => isTilePacked t.texture t.tileIndex),
         (flattenUpdates updates).filter (fun t => !isTilePacked t.texture t.tileIndex)) := by
  unfold collectTiles
  rw [collectTiles_go]
  simp

/-- C1: on every frame the number of regular tiles dequeued from the pending
request queue and scheduled for upload is exactly
`min (queue length) (min staging capacity, tilesPerFrame)`; the tiles taken are
the front of the queue in FIFO order (the frame's schedule is the packed tiles
followed, in queue order, by exactly those dequeued tiles), and the excess
stays queued in its original order (`List.drop`). -/
theorem regular_tiles_budget_fifo
    (requestedPackedTiles queue : List RequestedTile)
    (maxTilesUpload : Nat) (tilesPerFrame : Int)
    (h0 : 0 ≤ tilesPerFrame) (h32 : tilesPerFrame < 2 ^ 32) :
    (scheduleFrame requestedPackedTiles queue maxTilesUpload tilesPerFrame).2
      = queue.drop (min (min queue.length maxTilesUpload) tilesPerFrame.toNat) ∧
    (queue.take (min (min queue.length maxTilesUpload) tilesPerFrame.toNat)).length
      = min (min queue.length maxTilesUpload) tilesPerFrame.toNat ∧
    (scheduleFrame requestedPackedTiles queue maxTilesUpload tilesPerFrame).1
      = (queue.take (min (min queue.length maxTilesUpload) tilesPerFrame.toNat)).foldl
          scheduleTileForUpload (requestedPackedTiles.foldl scheduleTileForUpload []) ∧
    ∀ t : RequestedTile,
      tileCountIn (scheduleFrame requestedPackedTiles queue maxTilesUpload tilesPerFrame).1 t
        = tileCountIn (requestedPackedTiles.foldl scheduleTileForUpload []) t
          + (queue.take (min (min queue.length maxTilesUpload) tilesPerFrame.toNat)).count t := by
  have hc : countUpload queue.length maxTilesUpload tilesPerFrame
      = min (min queue.length maxTilesUpload) tilesPerFrame.toNat := by
    unfold countUpload
    rw [uint32OfInt_eq_toNat tilesPerFrame h0 h32]
  rw [scheduleFrame_eq, hc]
  refine ⟨rfl, ?_, rfl, ?_⟩
  · simp only [List.length_take]
    omega
  · intro t
    exact tileCountIn_foldl _ _ t

/-- Witness for C1, end-to-end scenario 2: 500 pending regular tiles,
`tilesPerFrame = 100`, staging capacity 256 — the remaining queue is the
original queue with its first `min (min 500 256) 100 = 100` tiles dropped. -/
theorem regular_tiles_budget_fifo_witness :
    (0 : Int) ≤ 100 ∧ (100 : Int) < 2 ^ 32 ∧
    (scheduleFrame [] ((List.range 500).map fun i => RequestedTile.mk 0 i) 256 100).2
      = ((List.range 500).map fun i => RequestedTile.mk 0 i).drop
          (min (min ((List.range 500).map fun i => RequestedTile.mk 0 i).length 256)
            ((100 : Int).toNat)) :=
  ⟨by decide, by decide,
    (regular_tiles_budget_fifo [] _ 256 100 (by decide) (by decide)).1⟩

/-- C2: every requested tile classified by `IsTilePacked` is collected into the
frame-local packed list (not the cross-frame queue), all packed tiles are
scheduled for upload in the same frame via the `writeTexture` byte-copy path,
and the per-frame regular cap counts only the regular queue. -/
theorem packed_tiles_bypass_queue_and_budget
    (isTilePacked : Nat → Nat → Bool) (updates : List FeedbackTextureUpdate)
    (queue : List RequestedTile) (maxTilesUpload : Nat) (tilesPerFrame : Int)
    (hq : ∀ t ∈ queue, isTilePacked t.texture t.tileIndex = false) :
    (collectTiles isTilePacked updates).1
      = (flattenUpdates updates).filter (fun t => isTilePacked t.texture t.tileIndex) ∧
    (collectTiles isTilePacked updates).2
      = (flattenUpdates updates).filter (fun t => !isTilePacked t.texture t.tileIndex) ∧
    (processFeedbackSchedule isTilePacked updates queue maxTilesUpload tilesPerFrame).2
      = (queue ++ (flattenUpdates updates).filter
            (fun t => !isTilePacked t.texture t.tileIndex)).drop
          (countUpload
            (queue ++ (flattenUpdates updates).filter
              (fun t => !isTilePacked t.texture t.tileIndex)).length
            maxTilesUpload tilesPerFrame) ∧
    ∀ t : RequestedTile, isTilePacked t.texture t.tileIndex = true →
      tileCountIn
          (processFeedbackSchedule isTilePacked updates queue maxTilesUpload tilesPerFrame).1 t
        = (flattenUpdates updates).count t ∧
      (processFeedbackSchedule isTilePacked updates queue maxTilesUpload tilesPerFrame).2.count t
        = 0 ∧
      uploadPathForTile isTilePacked t.texture t.tileIndex
        = TileUploadPath.packedMipWriteTexture := by
  have hcol := collectTiles_eq isTilePacked updates
  have h1 : (collectTiles isTilePacked updates).1
      = (flattenUpdates updates).filter (fun t => isTilePacked t.texture t.tileIndex) := by
    rw [hcol]
  have h2 : (collectTiles isTilePacked updates).2
      = (flattenUpdates updates).filter (fun t => !isTilePacked t.texture t.tileIndex) := by
    rw [hcol]
  refine ⟨h1, h2, ?_, ?_⟩
  · unfold processFeedbackSchedule
    rw [h1, h2, scheduleFrame_eq]
  · intro t ht
    have hqcount : ∀ n, ((queue ++ (flattenUpdates updates).filter
        (fun t => !isTilePacked t.texture t.tileIndex)).take n).count t = 0 ∧
        ((queue ++ (flattenUpdates updates).filter
        (fun t => !isTilePacked t.texture t.tileIndex)).drop n).count t = 0 := by
      intro n
      have hfull : (queue ++ (flattenUpdates updates).filter
          (fun t => !isTilePacked t.texture t.tileIndex)).count t = 0 := by
        rw [List.count_append]
        have hc1 : queue.count t = 0 := by
          rw [List.count_eq_zero]
          intro hmem
          rw [hq t hmem] at ht
          simp at ht
        have hc2 : ((flattenUpdates updates).filter
            (fun t => !isTilePacked t.texture t.tileIndex)).count t = 0 := by
          rw [List.count_eq_zero]
          intro hmem
          have := (List.mem_filter.mp hmem).2
          rw [ht] at this
          simp at this
        omega
      constructor
      · have := (List.take_sublist n
          (queue ++ (flattenUpdates updates).filter
            (fun t => !isTilePacked t.texture t.tileIndex))).count_le t
        omega
      · have := (List.drop_sublist n
          (queue ++ (flattenUpdates updates).filter
            (fun t => !isTilePacked t.texture t.tileIndex))).count_le t
        omega
    refine ⟨?_, ?_, ?_⟩
    · unfold processFeedbackSchedule
      rw [h1, h2, scheduleFrame_eq]
      simp only [tileCountIn_foldl]
      have hcf : ((flattenUpdates updates).filter
          (fun s => isTilePacked s.texture s.tileIndex)).count t
          = (flattenUpdates updates).count t := List.count_filter ht
      rw [(hqcount _).1, hcf]
      simp [tileCountIn_nil]
    · unfold processFeedbackSchedule
      rw [h1, h2, scheduleFrame_eq]
      exact (hqcount _).2
    · unfold uploadPathForTile
      rw [if_pos ht]

/-- Witness for C2 at concrete inputs: with tile index 0 packed, updates
requesting tiles 0 and 5 of texture 1, and a queue holding the regular tile
(1,7), the packed tile (1,0) is scheduled this frame exactly as often as
requested. -/
theorem packed_tiles_bypass_queue_and_budget_witness :
    (∀ t ∈ [RequestedTile.mk 1 7],
      ((fun _ idx => idx == 0) : Nat → Nat → Bool) t.texture t.tileIndex = false) ∧
    tileCountIn (processFeedbackSchedule (fun _ idx => idx == 0)
        [⟨1, [0, 5]⟩] [RequestedTile.mk 1 7] 4 2).1 (RequestedTile.mk 1 0)
      = (flattenUpdates [⟨1, [0, 5]⟩]).count (RequestedTile.mk 1 0) := by
  refine ⟨by decide, ?_⟩
  exact ((packed_tiles_bypass_queue_and_budget (fun _ idx => idx == 0) [⟨1, [0, 5]⟩]
    [RequestedTile.mk 1 7] 4 2 (by decide)).2.2.2 (RequestedTile.mk 1 0) (by decide)).1

/-- C7: after `SceneUnloading`, all five lookup maps of `FeedbackTextureMaps`
and the pending requested-tile queue are empty — the structure is cleared in
full in one operation, whatever its prior contents. -/
theorem sceneUnloading_clears_everything (s : AppFeedbackState) :
    (sceneUnloading s).feedbackTextureMaps.m_feedbackTexturesByName = [] ∧
    (sceneUnloading s).feedbackTextureMaps.m_feedbackTexturesByFeedback = [] ∧
    (sceneUnloading s).feedbackTextureMaps.m_feedbackTexturesBySource = [] ∧
    (sceneUnloading s).feedbackTextureMaps.m_feedbackTextureSetsByMaterial = [] ∧
    (sceneUnloading s).feedbackTextureMaps.m_materialConstantsFeedback = [] ∧
    (sceneUnloading s).requestedTiles = [] :=
  ⟨rfl, rfl, rfl, rfl, rfl, rfl⟩

theorem lookup_setCacheEntry_self (l : List (Nat × Option Nat)) (k : Nat) (v : Option Nat) :
    (setCacheEntry l k v).lookup k = some v := by
  induction l with
  | nil => simp [setCacheEntry, List.lookup_cons]
  | cons p rest ih =>
    rcases p with ⟨k0, w⟩
    by_cases h : k0 = k
    · subst h
      simp [setCacheEntry, List.lookup_cons]
    · have hne : (k == k0) = false := by simp [Ne.symm h]
      simp [setCacheEntry, h, List.lookup_cons, hne, ih]

theorem lookup_setCacheEntry_ne (l : List (Nat × Option Nat)) (k k' : Nat) (v : Option Nat)
    (h : k' ≠ k) : (setCacheEntry l k v).lookup k' = l.lookup k' := by
  have hne : (k' == k) = false := by simp [h]
  induction l with
  | nil => simp [setCacheEntry, List.lookup_cons, hne]
  | cons p rest ih =>
    rcases p with ⟨k0, w⟩
    by_cases h0 : k0 = k
    · subst h0
      simp [setCacheEntry, List.lookup_cons, hne]
    · by_cases hk : k' = k0
      · subst hk
        simp [setCacheEntry, h0, List.lookup_cons]
      · have hk' : (k' == k0) = false := by simp [hk]
        simp [setCacheEntry, h0, List.lookup_cons, hk', ih]

theorem GetMaterialBindingSet_hit (c : MaterialBindingCache) (descValid : Bool)
    (material : Nat) (b : Nat) (h : c.m_BindingSets.lookup material = some (some b)) :
    GetMaterialBindingSet c descValid material = (some b, c) := by
  unfold GetMaterialBindingSet
  rw [h]

theorem GetMaterialBindingSet_miss (c : MaterialBindingCache) (descValid : Bool)
    (material : Nat) (h : ∀ b, c.m_BindingSets.lookup material ≠ some (some b)) :
    GetMaterialBindingSet c descValid material =
      (if descValid then some c.nextBindingSetHandle else none,
        bindingCacheMiss c descValid material) := by
  unfold GetMaterialBindingSet
  cases hm : c.m_BindingSets.lookup material with
  | none => rfl
  | some w =>
    cases w with
    | none => rfl
    | some b => exact absurd hm (h b)

theorem runGets_constructions_le (mat : Nat) (ms : List Nat) (c : MaterialBindingCache) :
    (runGetMaterialBindingSet c true ms).constructedFor.count mat
      ≤ c.constructedFor.count mat +
        (match c.m_BindingSets.lookup mat with
         | some (some _) => 0
         | _ => 1) := by
  induction ms generalizing c with
  | nil =>
    cases h : c.m_BindingSets.lookup mat with
    | none => simp [runGetMaterialBindingSet]
    | some w => cases w <;> simp [runGetMaterialBindingSet]
  | cons m rest ih =>
    show (runGetMaterialBindingSet (GetMaterialBindingSet c true m).2 true rest).constructedFor.count mat ≤ _
    by_cases hhit : ∃ b, c.m_BindingSets.lookup m = some (some b)
    · rcases hhit with ⟨b, hb⟩
      rw [GetMaterialBindingSet_hit c true m b hb]
      exact ih c
    · push_neg at hhit
      rw [GetMaterialBindingSet_miss c true m hhit]
      dsimp only
      have h2 := ih (bindingCacheMiss c true m)
      by_cases hmm : m = mat
      · subst hmm
        have hself : (bindingCacheMiss c true m).m_BindingSets.lookup m
            = some (some c.nextBindingSetHandle) := by
          unfold bindingCacheMiss
          simp [lookup_setCacheEntry_self]
        rw [hself] at h2
        have hlog : (bindingCacheMiss c true m).constructedFor.count m
            = c.constructedFor.count m + 1 := by
          unfold bindingCacheMiss
          simp [List.count_append]
        rw [hlog] at h2
        have h3 : (runGetMaterialBindingSet (bindingCacheMiss c true m)
              true rest).constructedFor.count m
            ≤ c.constructedFor.count m + 1 + 0 := h2
        have hmatch : (match c.m_BindingSets.lookup m with
            | some (some _) => 0
            | _ => 1) = 1 := by
          cases h : c.m_BindingSets.lookup m with
          | none => rfl
          | some w =>
            cases w with
            | none => rfl
            | some b => exact absurd h (hhit b)
        rw [hmatch]
        omega
      · have hne : (bindingCacheMiss c true m).m_BindingSets.lookup mat
            = c.m_BindingSets.lookup mat := by
          unfold bindingCacheMiss
          simp only
          exact lookup_setCacheEntry_ne _ _ _ _ (fun hx => hmm hx.symm)
        rw [hne] at h2
        have hlog : (bindingCacheMiss c true m).constructedFor.count mat
            = c.constructedFor.count mat := by
          unfold bindingCacheMiss
          have : (m == mat) = false := by simp [hmm]
          simp [List.count_append, List.count_cons, this]
        rw [hlog] at h2
        exact h2

/-- C8: `GetMaterialBindingSet` is memoized per material — with a valid binding
description, the first call for an uncached material constructs a binding set
and stores it, every later call for the same material returns the identical
cached handle without constructing (the cache state is unchanged and cached
entries of other materials are never removed), at most one construction per
material happens between `Clear`s, and `Clear` empties the entire cache at
once. -/
theorem getMaterialBindingSet_memoized (c : MaterialBindingCache) (material : Nat) :
    (∀ b, c.m_BindingSets.lookup material = some (some b) →
      GetMaterialBindingSet c true material = (some b, c)) ∧
    (c.m_BindingSets.lookup material = none →
      (GetMaterialBindingSet c true material).1 = some c.nextBindingSetHandle ∧
      (GetMaterialBindingSet c true material).2.m_BindingSets.lookup material
        = some (some c.nextBindingSetHandle) ∧
      (GetMaterialBindingSet c true material).2.constructedFor
        = c.constructedFor ++ [material]) ∧
    (∀ m b, c.m_BindingSets.lookup m = some (some b) →
      (GetMaterialBindingSet c true material).2.m_BindingSets.lookup m = some (some b)) ∧
    (∀ ms, (runGetMaterialBindingSet (ClearBindingCache c) true ms).constructedFor.count material
      ≤ c.constructedFor.count material + 1) ∧
    (ClearBindingCache c).m_BindingSets = [] := by
  refine ⟨?_, ?_, ?_, ?_, rfl⟩
  · intro b hb
    exact GetMaterialBindingSet_hit c true material b hb
  · intro hnone
    have hmiss : ∀ b, c.m_BindingSets.lookup material ≠ some (some b) := by
      intro b hb
      rw [hnone] at hb
      exact Option.noConfusion hb
    rw [GetMaterialBindingSet_miss c true material hmiss]
    refine ⟨rfl, ?_, rfl⟩
    show (bindingCacheMiss c true material).m_BindingSets.lookup material
      = some (some c.nextBindingSetHandle)
    unfold bindingCacheMiss
    simp [lookup_setCacheEntry_self]
  · intro m b hm
    by_cases hhit : ∃ b', c.m_BindingSets.lookup material = some (some b')
    · rcases hhit with ⟨b', hb'⟩
      rw [GetMaterialBindingSet_hit c true material b' hb']
      exact hm
    · push_neg at hhit
      rw [GetMaterialBindingSet_miss c true material hhit]
      show (bindingCacheMiss c true material).m_BindingSets.lookup m = some (some b)
      have hne : m ≠ material := by
        intro hx
        exact hhit b (hx ▸ hm)
      unfold bindingCacheMiss
      rw [lookup_setCacheEntry_ne _ _ _ _ hne]
      exact hm
  · intro ms
    have h := runGets_constructions_le material ms (ClearBindingCache c)
    have hcl : (ClearBindingCache c).m_BindingSets.lookup material = none := rfl
    rw [hcl] at h
    have hlog : (ClearBindingCache c).constructedFor = c.constructedFor := rfl
    rw [hlog] at h
    exact h

/-- Witness for C8 at a concrete cache: the empty cache has no entry for
material 7, and the first query constructs and returns handle 0. -/
theorem getMaterialBindingSet_memoized_witness :
    (MaterialBindingCache.mk [] 0 []).m_BindingSets.lookup 7 = none ∧
    (GetMaterialBindingSet (MaterialBindingCache.mk [] 0 []) true 7).1 = some 0 := by
  refine ⟨rfl, ?_⟩
  exact ((getMaterialBindingSet_memoized (MaterialBindingCache.mk [] 0 []) 7).2.1 rfl).1

theorem runRefOps_invariant (ops : List RefOp) (t : FeedbackTextureLifetime)
    (hval : validRefOps t.m_refCount ops = true)
    (hd : t.destroyed = decide (t.m_refCount = 0))
    (hu : t.destroyed = true → t.unregistered = true) :
    ((t.runRefOps ops).destroyed = decide ((t.runRefOps ops).m_refCount = 0)) ∧
    ((t.runRefOps ops).destroyed = true → (t.runRefOps ops).unregistered = true) := by
  induction ops generalizing t with
  | nil => exact ⟨hd, hu⟩
  | cons op rest ih =>
    cases op with
    | addRef =>
      unfold validRefOps at hval
      rw [Bool.and_eq_true, decide_eq_true_iff] at hval
      rcases hval with ⟨hpos, hval⟩
      show ((t.AddRef.2).runRefOps rest).destroyed = _ ∧ _
      refine ih t.AddRef.2 ?_ ?_ ?_
      · show validRefOps (t.m_refCount + 1) rest = true
        exact hval
      · show t.destroyed = decide (t.m_refCount + 1 = 0)
        rw [hd]
        simp
        omega
      · exact hu
    | release =>
      unfold validRefOps at hval
      rw [Bool.and_eq_true, decide_eq_true_iff] at hval
      rcases hval with ⟨hpos, hval⟩
      have hstep : t.runRefOps (RefOp.release :: rest) = t.Release.2.runRefOps rest := rfl
      rw [hstep]
      by_cases hz : t.m_refCount - 1 = 0
      · have hrel : t.Release.2 =
            { m_refCount := t.m_refCount - 1, destroyed := true, unregistered := true } := by
          unfold FeedbackTextureLifetime.Release
          rw [if_pos hz]
        rw [hrel]
        refine ih _ ?_ ?_ ?_
        · show validRefOps (t.m_refCount - 1) rest = true
          exact hval
        · show true = decide (t.m_refCount - 1 = 0)
          simp [hz]
        · intro _
          rfl
      · have hrel : t.Release.2 = { t with m_refCount := t.m_refCount - 1 } := by
          unfold FeedbackTextureLifetime.Release
          rw [if_neg hz]
        rw [hrel]
        refine ih _ ?_ ?_ ?_
        · show validRefOps (t.m_refCount - 1) rest = true
          exact hval
        · show t.destroyed = decide (t.m_refCount - 1 = 0)
          rw [hd]
          simp
          omega
        · exact hu

/-- C9: a `FeedbackTextureImpl` starts with reference count 1; `AddRef` and
`Release` return the updated count; the object is destroyed exactly when the
count reaches zero via `Release`, unregistration happens during destruction,
and along any valid call sequence the object is destroyed if and only if its
count is zero — never while the count is nonzero, and never without having
been unregistered. -/
theorem feedbackTexture_refcount_lifetime :
    FeedbackTextureLifetime.init.m_refCount = 1 ∧
    FeedbackTextureLifetime.init.destroyed = false ∧
    (∀ t : FeedbackTextureLifetime,
      t.AddRef.1 = t.m_refCount + 1 ∧
      t.AddRef.2.m_refCount = t.m_refCount + 1 ∧
      t.AddRef.2.destroyed = t.destroyed) ∧
    (∀ t : FeedbackTextureLifetime,
      t.Release.1 = t.m_refCount - 1 ∧
      t.Release.2.m_refCount = t.m_refCount - 1 ∧
      t.Release.2.destroyed = (decide (t.m_refCount - 1 = 0) || t.destroyed) ∧
      (t.m_refCount - 1 = 0 → t.Release.2.unregistered = true)) ∧
    (∀ ops, validRefOps 1 ops = true →
      ((FeedbackTextureLifetime.init.runRefOps ops).destroyed = true ↔
        (FeedbackTextureLifetime.init.runRefOps ops).m_refCount = 0) ∧
      ((FeedbackTextureLifetime.init.runRefOps ops).destroyed = true →
        (FeedbackTextureLifetime.init.runRefOps ops).unregistered = true)) := by
  refine ⟨rfl, rfl, ?_, ?_, ?_⟩
  · intro t
    exact ⟨rfl, rfl, rfl⟩
  · intro t
    unfold FeedbackTextureLifetime.Release
    by_cases hz : t.m_refCount - 1 = 0
    · rw [if_pos hz]
      refine ⟨rfl, rfl, ?_, fun _ => rfl⟩
      simp [hz]
    · rw [if_neg hz]
      refine ⟨rfl, rfl, ?_, fun hx => absurd hx hz⟩
      simp [hz]
  · intro ops hval
    have h := runRefOps_invariant ops FeedbackTextureLifetime.init hval rfl (by intro hx; cases hx)
    refine ⟨?_, h.2⟩
    rw [h.1]
    simp

/-- Witness for C9: along the valid sequence AddRef, Release, Release the
object ends destroyed with count zero and unregistered. -/
theorem feedbackTexture_refcount_lifetime_witness :
    validRefOps 1 [RefOp.addRef, RefOp.release, RefOp.release] = true ∧
    ((FeedbackTextureLifetime.init.runRefOps
        [RefOp.addRef, RefOp.release, RefOp.release]).destroyed = true ↔
      (FeedbackTextureLifetime.init.runRefOps
        [RefOp.addRef, RefOp.release, RefOp.release]).m_refCount = 0) := by
  refine ⟨by decide, ?_⟩
  exact (feedbackTexture_refcount_lifetime.2.2.2.2
    [RefOp.addRef, RefOp.release, RefOp.release] (by decide)).1

theorem buildTextureSets_go (bySource : List (Nat × TexSetDesc))
    (materials : List (Nat × Material)) (acc : List (Nat × List Nat)) :
    materials.foldl (fun acc p =>
        match ensureTextureSetForMaterial bySource p.2 with
        | none => acc
        | some s => acc ++ [(p.1, s)]) acc
      = acc ++ materials.filterMap (fun p =>
          (ensureTextureSetForMaterial bySource p.2).map (fun s => (p.1, s))) := by
  induction materials generalizing acc with
  | nil => simp
  | cons p rest ih =>
    simp only [List.foldl_cons, List.filterMap_cons]
    cases h : ensureTextureSetForMaterial bySource p.2 with
    | none => simp [h, ih]
    | some s => simp [h, ih acc, ih (acc ++ [(p.1, s)])]

theorem buildTextureSets_eq (bySource : List (Nat × TexSetDesc))
    (materials : List (Nat × Material)) :
    buildTextureSets bySource materials
      = materials.filterMap (fun p =>
          (ensureTextureSetForMaterial bySource p.2).map (fun s => (p.1, s))) := by
  unfold buildTextureSets
  rw [buildTextureSets_go]
  simp

theorem lookup_setsFilterMap_notMem (bySource : List (Nat × TexSetDesc))
    (materials : List (Nat × Material)) (i : Nat)
    (hnot : i ∉ materials.map Prod.fst) :
    (materials.filterMap (fun p =>
        (ensureTextureSetForMaterial bySource p.2).map (fun s => (p.1, s)))).lookup i
      = none := by
  induction materials with
  | nil => simp
  | cons p rest ih =>
    simp only [List.map_cons, List.mem_cons, not_or] at hnot
    rcases hnot with ⟨hne, hnot⟩
    simp only [List.filterMap_cons]
    cases h : ensureTextureSetForMaterial bySource p.2 with
    | none => exact ih hnot
    | some s =>
      simp only [Option.map_some']
      rw [List.lookup_cons]
      have : (i == p.1) = false := by simp [hne]
      simp [this, ih hnot]

theorem lookup_buildTextureSets (bySource : List (Nat × TexSetDesc))
    (materials : List (Nat × Material)) (hnodup : (materials.map Prod.fst).Nodup)
    (i : Nat) (m : Material) (hmem : (i, m) ∈ materials) :
    (buildTextureSets bySource materials).lookup i
      = ensureTextureSetForMaterial bySource m := by
  rw [buildTextureSets_eq]
  induction materials with
  | nil => simp at hmem
  | cons p rest ih =>
    simp only [List.map_cons, List.nodup_cons] at hnodup
    rcases hnodup with ⟨hhead, hrest⟩
    rcases List.mem_cons.mp hmem with heq | htail
    · subst heq
      simp only [List.filterMap_cons]
      cases h : ensureTextureSetForMaterial bySource m with
      | none =>
        exact lookup_setsFilterMap_notMem bySource rest i hhead
      | some s =>
        simp only [Option.map_some']
        rw [List.lookup_cons]
        simp
    · have hne : p.1 ≠ i := by
        intro hx
        exact hhead (hx ▸ List.mem_map_of_mem Prod.fst htail)
      simp only [List.filterMap_cons]
      cases h : ensureTextureSetForMaterial bySource p.2 with
      | none => exact ih hrest htail
      | some s =>
        simp only [Option.map_some']
        rw [List.lookup_cons]
        have : (i == p.1) = false := by simp [Ne.symm hne]
        simp only [this]
        exact ih hrest htail

theorem lookup_constantsMap (materials : List (Nat × Material)) (g : Nat → Bool) (i : Nat)
    (hmem : i ∈ materials.map Prod.fst) :
    (materials.map (fun p => (p.1, g p.1))).lookup i = some (g i) := by
  induction materials with
  | nil => simp at hmem
  | cons p rest ih =>
    simp only [List.map_cons, List.mem_cons] at hmem
    rcases hmem with heq | htail
    · subst heq
      rw [List.map_cons, List.lookup_cons]
      simp
    · rw [List.map_cons, List.lookup_cons]
      by_cases hip : i = p.1
      · subst hip
        simp
      · have : (i == p.1) = false := by simp [hip]
        simp only [this]
        exact ih htail

/-- C5: texture-set admission is all-or-nothing.  For a material whose diffuse
texture exists and is mapped (a candidate), the sets-by-material map stores the
candidate if and only if no member texture's reserved width, height or mip
count exceeds the primary's; a stored set is always the complete member list,
never a partial one; and every material's feedback constant buffer records
`useTextureSet` exactly as membership in the sets map, so a material without a
stored set falls back with `useTextureSet = false`. -/
theorem texture_set_admission_all_or_nothing
    (bySource : List (Nat × TexSetDesc)) (materials : List (Nat × Material))
    (hnodup : (materials.map Prod.fst).Nodup)
    (i : Nat) (m : Material) (hmem : (i, m) ∈ materials)
    (d : Nat) (primaryDesc : TexSetDesc)
    (hdiff : m.baseOrDiffuseTexture = some d)
    (hprim : bySource.lookup d = some primaryDesc) :
    ((ensureTextureSets bySource materials true).1.lookup i
        = ensureTextureSetForMaterial bySource m) ∧
    (ensureTextureSetForMaterial bySource m = none ∨
      ensureTextureSetForMaterial bySource m = some (textureSetMembers bySource m)) ∧
    ((ensureTextureSetForMaterial bySource m).isSome = true ↔
      ∀ tex ∈ textureSetMembers bySource m, ∀ dsc, bySource.lookup tex = some dsc →
        followerExceedsPrimary primaryDesc dsc = false) ∧
    ((ensureTextureSets bySource materials true).2.lookup i
        = some (ensureTextureSetForMaterial bySource m).isSome) := by
  have hsets : (ensureTextureSets bySource materials true).1
      = buildTextureSets bySource materials := rfl
  have hlk : (buildTextureSets bySource materials).lookup i
      = ensureTextureSetForMaterial bySource m :=
    lookup_buildTextureSets bySource materials hnodup i m hmem
  refine ⟨by rw [hsets, hlk], ?_, ?_, ?_⟩
  · unfold ensureTextureSetForMaterial
    split
    · exact Or.inl rfl
    · split
      · exact Or.inl rfl
      · split
        · exact Or.inl rfl
        · exact Or.inr rfl
  · unfold ensureTextureSetForMaterial
    split
    · rename_i heq
      rw [hdiff] at heq
      cases heq
    · rename_i diffuse heq
      rw [hdiff] at heq
      injection heq with heq
      subst heq
      split
      · rename_i heq2
        rw [hprim] at heq2
        cases heq2
      · rename_i pd heq2
        rw [hprim] at heq2
        injection heq2 with heq2
        subst heq2
        split
        · rename_i hany
          simp only [Option.isSome_none, Bool.false_eq_true, false_iff]
          intro hall
          rcases List.any_eq_true.mp hany with ⟨tex, htex, hpred⟩
          cases hl : bySource.lookup tex with
          | none =>
            rw [hl] at hpred
            exact Bool.noConfusion (show false = true from hpred)
          | some dsc =>
            rw [hl] at hpred
            have hpred' : followerExceedsPrimary primaryDesc dsc = true := hpred
            rw [hall tex htex dsc hl] at hpred'
            cases hpred'
        · rename_i hany
          simp only [Option.isSome_some, true_iff]
          intro tex htex dsc hl
          have hfalse := List.any_eq_false.mp (Bool.of_not_eq_true hany) tex htex
          rw [hl] at hfalse
          exact Bool.of_not_eq_true hfalse
  · have hconsts : (ensureTextureSets bySource materials true).2
        = materials.map (fun p => (p.1,
            ((buildTextureSets bySource materials).lookup p.1).isSome)) := rfl
    rw [hconsts,
      lookup_constantsMap materials
        (fun j => ((buildTextureSets bySource materials).lookup j).isSome) i
        (List.mem_map_of_mem Prod.fst hmem),
      hlk]

/-- Witness for C5, end-to-end scenario 3: primary 1024×1024 with 10 mips and
follower 2048×2048 with 11 mips — the candidate set is rejected in full and the
material's constants record `useTextureSet = false`. -/
theorem texture_set_admission_all_or_nothing_witness :
    ensureTextureSetForMaterial
        [(0, TexSetDesc.mk 1024 1024 10), (1, TexSetDesc.mk 2048 2048 11)]
        (Material.mk (some 0) none (some 1) none none none none) = none ∧
    (ensureTextureSets
        [(0, TexSetDesc.mk 1024 1024 10), (1, TexSetDesc.mk 2048 2048 11)]
        [(0, Material.mk (some 0) none (some 1) none none none none)] true).2.lookup 0
      = some false := by
  refine ⟨by decide, ?_⟩
  have h := (texture_set_admission_all_or_nothing
    [(0, TexSetDesc.mk 1024 1024 10), (1, TexSetDesc.mk 2048 2048 11)]
    [(0, Material.mk (some 0) none (some 1) none none none none)]
    (by decide) 0 (Material.mk (some 0) none (some 1) none none none none)
    (by decide) 0 (TexSetDesc.mk 1024 1024 10) rfl rfl).2.2.2
  rw [h]
  have : ensureTextureSetForMaterial
      [(0, TexSetDesc.mk 1024 1024 10), (1, TexSetDesc.mk 2048 2048 11)]
      (Material.mk (some 0) none (some 1) none none none none) = none := by decide
  rw [this]
  rfl

theorem allSubresourceWrites_go (t : TextureData) (l : List Nat)
    (acc : List (Nat × Nat × Nat)) :
    l.foldl (fun acc arraySlice =>
        acc ++ (List.range t.mipLevels).map (fun mipLevel => (t.name, arraySlice, mipLevel))) acc
      = acc ++ l.flatMap (fun arraySlice =>
          (List.range t.mipLevels).map (fun mipLevel => (t.name, arraySlice, mipLevel))) := by
  induction l generalizing acc with
  | nil => simp
  | cons s rest ih => simp [ih, List.append_assoc]

theorem mem_allSubresourceWrites (t : TextureData) (n s mip : Nat) :
    (n, s, mip) ∈ allSubresourceWrites t ↔
      n = t.name ∧ s < t.arraySize ∧ mip < t.mipLevels := by
  unfold allSubresourceWrites
  rw [allSubresourceWrites_go]
  simp only [List.nil_append, List.mem_flatMap, List.mem_map, List.mem_range]
  constructor
  · rintro ⟨a, ha, m, hm, heq⟩
    injection heq with h1 h2
    injection h2 with h2 h3
    exact ⟨h1.symm, h2 ▸ ha, h3 ▸ hm⟩
  · rintro ⟨h1, h2, h3⟩
    exact ⟨s, h2, mip, h3, by rw [h1]⟩

theorem ensureFeedbackTextures_go (cache : List TextureData) (st : EnsureTexturesResult) :
    (cache.foldl ensureFeedbackTexturesStep st).byName
        = st.byName ++ (cache.filter useTiledTexture).map (fun t => (t.name, t.name)) ∧
    (cache.foldl ensureFeedbackTexturesStep st).byFeedback
        = st.byFeedback ++ (cache.filter useTiledTexture).map (fun t => (t.name, t.name)) ∧
    (cache.foldl ensureFeedbackTexturesStep st).bySource
        = st.bySource ++ (cache.filter useTiledTexture).map (fun t => (t.name, t.name)) ∧
    (cache.foldl ensureFeedbackTexturesStep st).gpuTexture
        = st.gpuTexture ++ (cache.filter (fun t => !useTiledTexture t)).map
            (fun t => (t.name, t.name)) ∧
    (cache.foldl ensureFeedbackTexturesStep st).writes
        = st.writes ++ (cache.filter (fun t => !useTiledTexture t)).flatMap
            allSubresourceWrites := by
  induction cache generalizing st with
  | nil => simp
  | cons t rest ih =>
    simp only [List.foldl_cons, List.filter_cons]
    rcases ih (ensureFeedbackTexturesStep st t) with ⟨h1, h2, h3, h4, h5⟩
    by_cases ht : useTiledTexture t
    · have hstep : ensureFeedbackTexturesStep st t =
          { st with
            byName := st.byName ++ [(t.name, t.name)]
            byFeedback := st.byFeedback ++ [(t.name, t.name)]
            bySource := st.bySource ++ [(t.name, t.name)] } := by
        unfold ensureFeedbackTexturesStep
        rw [if_pos ht]
      rw [hstep] at h1 h2 h3 h4 h5
      rw [hstep]
      refine ⟨?_, ?_, ?_, ?_, ?_⟩ <;>
        simp [h1, h2, h3, h4, h5, ht, List.append_assoc]
    · have hstep : ensureFeedbackTexturesStep st t =
          { st with
            gpuTexture := st.gpuTexture ++ [(t.name, t.name)]
            writes := st.writes ++ allSubresourceWrites t } := by
        unfold ensureFeedbackTexturesStep
        rw [if_neg ht]
      rw [hstep] at h1 h2 h3 h4 h5
      rw [hstep]
      refine ⟨?_, ?_, ?_, ?_, ?_⟩ <;>
        simp [h1, h2, h3, h4, h5, ht, List.append_assoc]

theorem lookup_nameMap_notMem (l : List TextureData) (p : TextureData → Bool) (n : Nat)
    (hnot : n ∉ l.map TextureData.name) :
    ((l.filter p).map (fun x => (x.name, x.name))).lookup n = none := by
  induction l with
  | nil => simp
  | cons x rest ih =>
    simp only [List.map_cons, List.mem_cons, not_or] at hnot
    rcases hnot with ⟨hne, hnot⟩
    simp only [List.filter_cons]
    by_cases hp : p x
    · simp only [hp, if_true, List.map_cons]
      rw [List.lookup_cons]
      have : (n == x.name) = false := by simp [hne]
      simp [this, ih hnot]
    · simp only [hp]
      simp only [Bool.false_eq_true, if_false]
      exact ih hnot

theorem lookup_nameMap (l : List TextureData) (p : TextureData → Bool) (t : TextureData)
    (hmem : t ∈ l) (hnodup : (l.map TextureData.name).Nodup) :
    ((l.filter p).map (fun x => (x.name, x.name))).lookup t.name
      = if p t then some t.name else none := by
  induction l with
  | nil => simp at hmem
  | cons x rest ih =>
    simp only [List.map_cons, List.nodup_cons] at hnodup
    rcases hnodup with ⟨hhead, hrest⟩
    rcases List.mem_cons.mp hmem with heq | htail
    · subst heq
      simp only [List.filter_cons]
      by_cases hp : p t
      · simp only [hp, if_true, List.map_cons]
        rw [List.lookup_cons]
        simp
      · simp only [hp, Bool.false_eq_true, if_false]
        exact lookup_nameMap_notMem rest p t.name hhead
    · have hne : x.name ≠ t.name := by
        intro hx
        exact hhead (hx ▸ List.mem_map_of_mem TextureData.name htail)
      simp only [List.filter_cons]
      by_cases hp : p x
      · simp only [hp, if_true, List.map_cons]
        rw [List.lookup_cons]
        have : (t.name == x.name) = false := by simp [Ne.symm hne]
        simp only [this]
        exact ih htail hrest
      · simp only [hp, Bool.false_eq_true, if_false]
        exact ih htail hrest

theorem ensureFeedbackTextures_lookups (cache : List TextureData)
    (hnodup : (cache.map TextureData.name).Nodup) (t : TextureData) (hmem : t ∈ cache) :
    ((ensureFeedbackTextures cache).byName.lookup t.name
        = if useTiledTexture t then some t.name else none) ∧
    ((ensureFeedbackTextures cache).byFeedback.lookup t.name
        = if useTiledTexture t then some t.name else none) ∧
    ((ensureFeedbackTextures cache).bySource.lookup t.name
        = if useTiledTexture t then some t.name else none) ∧
    ((ensureFeedbackTextures cache).gpuTexture.lookup t.name
        = if useTiledTexture t then none else some t.name) ∧
    ((ensureFeedbackTextures cache).writes
        = (cache.filter (fun x => !useTiledTexture x)).flatMap allSubresourceWrites) := by
  obtain ⟨h1, h2, h3, h4, h5⟩ := ensureFeedbackTextures_go cache ⟨[], [], [], [], []⟩
  have e1 : (ensureFeedbackTextures cache).byName
      = (cache.filter useTiledTexture).map (fun x => (x.name, x.name)) := h1
  have e2 : (ensureFeedbackTextures cache).byFeedback
      = (cache.filter useTiledTexture).map (fun x => (x.name, x.name)) := h2
  have e3 : (ensureFeedbackTextures cache).bySource
      = (cache.filter useTiledTexture).map (fun x => (x.name, x.name)) := h3
  have e4 : (ensureFeedbackTextures cache).gpuTexture
      = (cache.filter (fun x => !useTiledTexture x)).map (fun x => (x.name, x.name)) := h4
  have e5 : (ensureFeedbackTextures cache).writes
      = (cache.filter (fun x => !useTiledTexture x)).flatMap allSubresourceWrites := h5
  refine ⟨?_, ?_, ?_, ?_, e5⟩
  · rw [e1]
    exact lookup_nameMap cache useTiledTexture t hmem hnodup
  · rw [e2]
    exact lookup_nameMap cache useTiledTexture t hmem hnodup
  · rw [e3]
    exact lookup_nameMap cache useTiledTexture t hmem hnodup
  · rw [e4, lookup_nameMap cache (fun x => !useTiledTexture x) t hmem hnodup]
    by_cases ht : useTiledTexture t <;> simp [ht]

theorem GetTextureBindingSetItem_some (res : EnsureTexturesResult) (name : Nat) :
    GetTextureBindingSetItem res (some name) =
      match res.gpuTexture.lookup name with
      | some h => some (BindingSetItemTexture.direct h)
      | none => (res.bySource.lookup name).map BindingSetItemTexture.reserved := rfl

/-- C6: a cached texture gets a tiled feedback texture (registered in the
feedback maps) if and only if its format lies in the block-compressed range
`BC1_UNORM … BC7_UNORM_SRGB` and its depth and array size are 1; any other
texture is created as an ordinary fully resident texture — its GPU handle is
set, every (array slice, mip level) subresource is written immediately, and it
is never entered into the feedback texture maps. -/
theorem tiled_texture_routing (cache : List TextureData)
    (hnodup : (cache.map TextureData.name).Nodup) (t : TextureData) (hmem : t ∈ cache) :
    (useTiledTexture t = true ↔
      (isBlockCompressed t.format = true ∧ t.depth = 1 ∧ t.arraySize = 1)) ∧
    ((ensureFeedbackTextures cache).byName.lookup t.name
        = if useTiledTexture t then some t.name else none) ∧
    ((ensureFeedbackTextures cache).byFeedback.lookup t.name
        = if useTiledTexture t then some t.name else none) ∧
    ((ensureFeedbackTextures cache).bySource.lookup t.name
        = if useTiledTexture t then some t.name else none) ∧
    ((ensureFeedbackTextures cache).gpuTexture.lookup t.name
        = if useTiledTexture t then none else some t.name) ∧
    (useTiledTexture t = false → ∀ s mip, s < t.arraySize → mip < t.mipLevels →
      (t.name, s, mip) ∈ (ensureFeedbackTextures cache).writes) := by
  obtain ⟨l1, l2, l3, l4, l5⟩ := ensureFeedbackTextures_lookups cache hnodup t hmem
  refine ⟨?_, l1, l2, l3, l4, ?_⟩
  · unfold useTiledTexture
    simp [Bool.and_eq_true, decide_eq_true_iff, and_assoc]
  · intro ht s mip hs hmip
    rw [l5]
    rw [List.mem_flatMap]
    refine ⟨t, ?_, ?_⟩
    · rw [List.mem_filter]
      exact ⟨hmem, by simp [ht]⟩
    · rw [mem_allSubresourceWrites]
      exact ⟨rfl, hs, hmip⟩

/-- Witness for C6 at a concrete cache: an RGBA8 texture with two array slices
is routed to the fully resident path and its subresource (slice 1, mip 2) is
written immediately. -/
theorem tiled_texture_routing_witness :
    (([TextureData.mk 0 TexFormat.BC1_UNORM 64 64 1 1 7,
       TextureData.mk 1 TexFormat.RGBA8_UNORM 64 64 1 2 3]).map TextureData.name).Nodup ∧
    (1, 1, 2) ∈ (ensureFeedbackTextures
      [TextureData.mk 0 TexFormat.BC1_UNORM 64 64 1 1 7,
       TextureData.mk 1 TexFormat.RGBA8_UNORM 64 64 1 2 3]).writes := by
  refine ⟨by decide, ?_⟩
  exact (tiled_texture_routing
    [TextureData.mk 0 TexFormat.BC1_UNORM 64 64 1 1 7,
     TextureData.mk 1 TexFormat.RGBA8_UNORM 64 64 1 2 3]
    (by decide) (TextureData.mk 1 TexFormat.RGBA8_UNORM 64 64 1 2 3)
    (by decide)).2.2.2.2.2 (by decide) 1 2 (by decide) (by decide)

/-- C10: after `EnsureFeedbackTextures`, every cached texture is in exactly one
of two states — its GPU texture handle is set (fully resident path), or one
shared wrapper is registered for it in all three maps; consequently
`GetTextureBindingSetItem`, which consults `m_feedbackTexturesBySource` only
when the GPU handle is unset, never looks up a key absent from that map. -/
theorem ensure_textures_exactly_one_state (cache : List TextureData)
    (hnodup : (cache.map TextureData.name).Nodup) (t : TextureData) (hmem : t ∈ cache) :
    (((ensureFeedbackTextures cache).gpuTexture.lookup t.name).isSome
        = !((ensureFeedbackTextures cache).bySource.lookup t.name).isSome) ∧
    ((ensureFeedbackTextures cache).gpuTexture.lookup t.name = none →
      ∃ w, (ensureFeedbackTextures cache).byName.lookup t.name = some w ∧
        (ensureFeedbackTextures cache).byFeedback.lookup t.name = some w ∧
        (ensureFeedbackTextures cache).bySource.lookup t.name = some w) ∧
    (GetTextureBindingSetItem (ensureFeedbackTextures cache) (some t.name)).isSome = true ∧
    GetTextureBindingSetItem (ensureFeedbackTextures cache) none
      = some BindingSetItemTexture.fallback := by
  obtain ⟨l1, l2, l3, l4, _⟩ := ensureFeedbackTextures_lookups cache hnodup t hmem
  by_cases ht : useTiledTexture t
  · rw [if_pos ht] at l1 l2 l3 l4
    refine ⟨?_, ?_, ?_, rfl⟩
    · rw [l3, l4]
      rfl
    · intro _
      exact ⟨t.name, l1, l2, l3⟩
    · rw [GetTextureBindingSetItem_some, l4, l3]
      rfl
  · rw [if_neg ht] at l1 l2 l3 l4
    refine ⟨?_, ?_, ?_, rfl⟩
    · rw [l3, l4]
      rfl
    · intro hx
      rw [l4] at hx
      exact Option.noConfusion hx
    · rw [GetTextureBindingSetItem_some, l4]
      rfl

/-- Witness for C10 at the same concrete cache: the binding-set item builder
resolves both the tiled BC1 texture and the non-tiled RGBA8 texture. -/
theorem ensure_textures_exactly_one_state_witness :
    (([TextureData.mk 0 TexFormat.BC1_UNORM 64 64 1 1 7,
       TextureData.mk 1 TexFormat.RGBA8_UNORM 64 64 1 2 3]).map TextureData.name).Nodup ∧
    (GetTextureBindingSetItem (ensureFeedbackTextures
        [TextureData.mk 0 TexFormat.BC1_UNORM 64 64 1 1 7,
         TextureData.mk 1 TexFormat.RGBA8_UNORM 64 64 1 2 3]) (some 0)).isSome = true := by
  refine ⟨by decide, ?_⟩
  exact (ensure_textures_exactly_one_state
    [TextureData.mk 0 TexFormat.BC1_UNORM 64 64 1 1 7,
     TextureData.mk 1 TexFormat.RGBA8_UNORM 64 64 1 2 3]
    (by decide) (TextureData.mk 0 TexFormat.BC1_UNORM 64 64 1 1 7)
    (by decide)).2.2.1
